import Mathlib

/-!
# xattr-rag: access-scoped retrieval over extended attributes

A shallow embedding of `xattr-rag-demo.go` (the in-memory index, the mock
embedding and the xattr-based retrieval filter) together with the properties
of the retrieval core.

Modelling conventions.

* A Go `map[string]V` is a list of entries with pairwise distinct keys. The
  list order is the order in which a `range` statement visits the entries.
  The Go language specification leaves that order unspecified ("the iteration
  order over maps is not specified and is not guaranteed to be the same from
  one iteration to the next"), so the same map may show up as any permutation
  of its entries: two lists that are permutations of each other stand for the
  same map, enumerated in two different orders.
* Go strings are modelled by Lean strings, their bytes by the UTF-8 encoding.
* The two `float64` values of a mock vector are conversions of non-negative
  integers, hence integer-valued; they are stored as their exact value.
* `fmt.Printf` output is not modelled.
-/

set_option linter.unusedVariables false
set_option maxRecDepth 100000

namespace XattrRag

/-! ## Go maps -/

/-- A Go `map[string]V`, given by its entries in the order `range` visits them. -/
abbrev GoMap (V : Type) := List (String × V)

/-- The two-valued lookup `v, ok := m[k]`: `some v` when `ok`, `none` otherwise. -/
def GoMap.commaOk {V : Type} (m : GoMap V) (k : String) : Option V :=
  List.lookup k m

/-- The one-valued lookup `m[k]` of a `map[string]string`: the zero value `""`
when the key is absent. -/
def GoMap.index (m : GoMap String) (k : String) : String :=
  (m.commaOk k).getD ""

/-- The assignment `m[k] = v`: the entry for `k` is replaced or added. -/
def GoMap.assign {V : Type} (m : GoMap V) (k : String) (v : V) : GoMap V :=
  (k, v) :: m.filter (fun e => e.1 ≠ k)

/-- Keys of a Go map are pairwise distinct. -/
def GoMap.WF {V : Type} (m : GoMap V) : Prop :=
  (m.map Prod.fst).Nodup

/-! ## Data model -/

/-- The struct `Document`: a piece of content on the file system. -/
structure Document where
  Path : String
  Content : String
  XAttrs : GoMap String
deriving DecidableEq, Repr

/-- The struct `DocumentEmbedding`: a document and its mock vector. -/
structure DocumentEmbedding where
  Document : Document
  MockVector : List Nat
deriving DecidableEq, Repr

/-! ## The mock embedding -/

/-- The bytes of a string (`[]byte(s)`), as numbers below 256. -/
def utf8Bytes (s : String) : List Nat :=
  s.toList.flatMap (fun c => (String.utf8EncodeChar c).map UInt8.toNat)

/-- The byte length `len(s)` of a string. -/
def byteLen (s : String) : Nat :=
  (utf8Bytes s).length

/-- The function `strings.Join(elems, sep)`. -/
def stringsJoin : List String → String → String
  | [], _ => ""
  | e :: es, sep => es.foldl (fun acc s => acc ++ sep ++ s) e

/-- The 64-bit FNV-1a hash of `hash/fnv` (`New64a`, `Write`, `Sum64`): starting
from the offset basis, each byte is xor-ed in and the state multiplied by the
FNV prime, modulo `2 ^ 64`. -/
def fnv64a (bytes : List Nat) : Nat :=
  bytes.foldl (fun h b => ((h ^^^ b) * 1099511628211) % 2 ^ 64) 14695981039346656037

/-- Number of significant bits of `n`, for `n < 2 ^ fuel`. -/
def bitLen : Nat → Nat → Nat
  | 0, _ => 0
  | fuel + 1, n => if n = 0 then 0 else bitLen fuel (n / 2) + 1

/-- The conversion `float64(n)` of a non-negative integer below `2 ^ 64`: the
nearest value with a 53-bit significand, ties to even. The result is given by
its exact (integer) value. -/
def toFloat64 (n : Nat) : Nat :=
  let len := bitLen 64 n
  if len ≤ 53 then n
  else
    let ulp := 2 ^ (len - 53)
    let q := n / ulp
    let r := n % ulp
    if 2 * r < ulp then q * ulp
    else if ulp < 2 * r then (q + 1) * ulp
    else if q % 2 = 0 then q * ulp
    else (q + 1) * ulp

/-- The text that `generateEmbedding` hashes: the content, followed, when there
is at least one attribute, by the attributes as `key=value`, in the order the
`range` over `doc.XAttrs` visits them. -/
def textForEmbedding (doc : Document) : String :=
  let xattrList := doc.XAttrs.map (fun kv => kv.1 ++ "=" ++ kv.2)
  if 0 < xattrList.length then
    doc.Content ++ ("\n\nExtended Attributes: " ++ stringsJoin xattrList ", ")
  else
    doc.Content

/-- The function `generateEmbedding`. -/
def generateEmbedding (doc : Document) : DocumentEmbedding :=
  let text := textForEmbedding doc
  let hashValue := toFloat64 (fnv64a (utf8Bytes text))
  let mockVector := [hashValue, toFloat64 (byteLen text)]
  { Document := doc, MockVector := mockVector }

/-! ## The index -/

/-- The function `indexDocument`, with the global `documentIndex` made explicit:
`documentIndex[doc.Path] = generateEmbedding(doc)`. -/
def indexDocument (documentIndex : GoMap DocumentEmbedding) (doc : Document) :
    GoMap DocumentEmbedding :=
  documentIndex.assign doc.Path (generateEmbedding doc)

/-- The documents of an index, in enumeration order. -/
def indexedDocuments (documentIndex : GoMap DocumentEmbedding) : List Document :=
  documentIndex.map (fun e => e.2.Document)

/-- What `indexDocument` maintains: keys are distinct and every entry is stored
under the path of its document. -/
def IndexInv (documentIndex : GoMap DocumentEmbedding) : Prop :=
  documentIndex.WF ∧ ∀ e ∈ documentIndex, e.1 = e.2.Document.Path

/-! ## Retrieval -/

/-- The xattr filter in the loop body of `retrieveDocuments`. `none` is a
`continue` (the document is skipped), `some ()` means that the end of the
filtering section is reached. -/
def xattrFilter (doc : Document) (userContext : GoMap String) : Option Unit := do
  -- Example 1: User ID matching
  if let some requiredUserID := userContext.commaOk "user_id" then
    if let some docUserID := doc.XAttrs.commaOk "user.user_id" then
      if docUserID ≠ requiredUserID then
        none
  -- Example 2: Location matching
  if let some requiredLocation := userContext.commaOk "location" then
    if let some docLocation := doc.XAttrs.commaOk "user.location" then
      if docLocation ≠ requiredLocation then
        none
  -- Example 3: Sensitivity Level
  if let some docSensitivity := doc.XAttrs.commaOk "user.sensitivity" then
    if docSensitivity = "confidential" then
      if userContext.index "department" ≠ "IT" ∧ userContext.index "user_id" ≠ "123" then
        none
    else if docSensitivity = "internal" then
      if (userContext.commaOk "user_id").isNone then
        none
  pure ()

/-- The function `retrieveDocuments`, with the global `documentIndex` made
explicit: the loop appends every document that passes the filter. -/
def retrieveDocuments (documentIndex : GoMap DocumentEmbedding) (query : String)
    (userContext : GoMap String) : List Document :=
  documentIndex.foldl
    (fun relevantDocuments entry =>
      let doc := entry.2.Document
      match xattrFilter doc userContext with
      | none => relevantDocuments
      | some _ => relevantDocuments ++ [doc])
    []

/-! ## The denying conditions, in the words of the specification -/

/-- Identity-match check: the context has `user_id` and the document has
`user.user_id` with a different value. -/
def DeniesIdentity (C : GoMap String) (D : Document) : Prop :=
  C.commaOk "user_id" ≠ none ∧ D.XAttrs.commaOk "user.user_id" ≠ none ∧
    D.XAttrs.commaOk "user.user_id" ≠ C.commaOk "user_id"

/-- Location-match check: the context has `location` and the document has
`user.location` with a different value. -/
def DeniesLocation (C : GoMap String) (D : Document) : Prop :=
  C.commaOk "location" ≠ none ∧ D.XAttrs.commaOk "user.location" ≠ none ∧
    D.XAttrs.commaOk "user.location" ≠ C.commaOk "location"

/-- Confidential tier: the document is `confidential`, the department of the
context is not `IT` and its identity is not `123`. -/
def DeniesConfidential (C : GoMap String) (D : Document) : Prop :=
  D.XAttrs.commaOk "user.sensitivity" = some "confidential" ∧
    C.commaOk "department" ≠ some "IT" ∧ C.commaOk "user_id" ≠ some "123"

/-- Internal tier: the document is `internal` and the context has no `user_id`. -/
def DeniesInternal (C : GoMap String) (D : Document) : Prop :=
  D.XAttrs.commaOk "user.sensitivity" = some "internal" ∧ C.commaOk "user_id" = none

/-- Some check denies the document for the context. -/
def Denies (C : GoMap String) (D : Document) : Prop :=
  DeniesIdentity C D ∨ DeniesLocation C D ∨ DeniesConfidential C D ∨ DeniesInternal C D

instance (C : GoMap String) (D : Document) : Decidable (DeniesIdentity C D) := by
  unfold DeniesIdentity; infer_instance

instance (C : GoMap String) (D : Document) : Decidable (DeniesLocation C D) := by
  unfold DeniesLocation; infer_instance

instance (C : GoMap String) (D : Document) : Decidable (DeniesConfidential C D) := by
  unfold DeniesConfidential; infer_instance

instance (C : GoMap String) (D : Document) : Decidable (DeniesInternal C D) := by
  unfold DeniesInternal; infer_instance

instance (C : GoMap String) (D : Document) : Decidable (Denies C D) := by
  unfold Denies; infer_instance

/-! ## Sample data -/

/-- Scenario A document: `sensitivity: confidential` only. -/
def docConfidential : Document :=
  { Path := "a.txt", Content := "alpha", XAttrs := [("user.sensitivity", "confidential")] }

/-- Scenario B document: `sensitivity: internal` only. -/
def docInternal : Document :=
  { Path := "b.txt", Content := "beta", XAttrs := [("user.sensitivity", "internal")] }

/-- Scenario C document: `user_id: 123`, `location: New York`. -/
def docNewYork : Document :=
  { Path := "c.txt", Content := "gamma",
    XAttrs := [("user.user_id", "123"), ("user.location", "New York")] }

/-- A document without any of the three policy attributes. -/
def docPublic : Document :=
  { Path := "d.txt", Content := "delta", XAttrs := [("user.type", "public")] }

/-- The document `docNewYork` with its attribute map enumerated the other way round. -/
def docNewYorkSwapped : Document :=
  { Path := "c.txt", Content := "gamma",
    XAttrs := [("user.location", "New York"), ("user.user_id", "123")] }

/-- An index holding the four sample documents. -/
def sampleIndex : GoMap DocumentEmbedding :=
  indexDocument (indexDocument (indexDocument (indexDocument [] docConfidential) docInternal)
    docNewYork) docPublic

/-! ## The filter and the loop -/

theorem index_eq_iff (C : GoMap String) (k v : String) (hv : v ≠ "") :
    C.index k = v ↔ C.commaOk k = some v := by
  unfold GoMap.index
  cases h : C.commaOk k with
  | none => simp [Ne.symm hv]
  | some w => simp

theorem xattrFilter_eq_some_iff (D : Document) (C : GoMap String) :
    xattrFilter D C = some () ↔ ¬ Denies C D := by
  have hIT := index_eq_iff C "department" "IT" (by decide)
  have h123 := index_eq_iff C "user_id" "123" (by decide)
  unfold xattrFilter Denies DeniesIdentity DeniesLocation DeniesConfidential DeniesInternal
  simp only [ne_eq, ← hIT, ← h123]
  unfold GoMap.index
  cases hu : C.commaOk "user_id" <;> cases hl : C.commaOk "location" <;>
    cases hdu : D.XAttrs.commaOk "user.user_id" <;>
    cases hdl : D.XAttrs.commaOk "user.location" <;>
    cases hs : D.XAttrs.commaOk "user.sensitivity" <;>
    simp <;> (try split_ifs) <;> simp_all

theorem xattrFilter_eq_none_iff (D : Document) (C : GoMap String) :
    xattrFilter D C = none ↔ Denies C D := by
  cases hx : xattrFilter D C with
  | none =>
    have := (xattrFilter_eq_some_iff D C).not
    simp [hx] at this
    simpa using this
  | some u =>
    have := (xattrFilter_eq_some_iff D C).1 hx
    simp [this]

theorem retrieveDocuments_foldl (C : GoMap String) (idx : GoMap DocumentEmbedding)
    (acc : List Document) :
    idx.foldl
      (fun relevantDocuments entry =>
        let doc := entry.2.Document
        match xattrFilter doc C with
        | none => relevantDocuments
        | some _ => relevantDocuments ++ [doc])
      acc = acc ++ (indexedDocuments idx).filter (fun D => decide (¬ Denies C D)) := by
  induction idx generalizing acc with
  | nil => simp [indexedDocuments]
  | cons e es ih =>
    rw [List.foldl_cons, ih]
    by_cases h : Denies C e.2.Document
    · have hn : xattrFilter e.2.Document C = none := (xattrFilter_eq_none_iff _ _).2 h
      simp [indexedDocuments, hn, h]
    · have hs : xattrFilter e.2.Document C = some () := (xattrFilter_eq_some_iff _ _).2 h
      simp [indexedDocuments, hs, h]

theorem retrieveDocuments_eq_filter (idx : GoMap DocumentEmbedding) (q : String)
    (C : GoMap String) :
    retrieveDocuments idx q C =
      (indexedDocuments idx).filter (fun D => decide (¬ Denies C D)) := by
  unfold retrieveDocuments
  rw [retrieveDocuments_foldl]
  simp

theorem mem_retrieveDocuments (idx : GoMap DocumentEmbedding) (q : String)
    (C : GoMap String) (D : Document) :
    D ∈ retrieveDocuments idx q C ↔ D ∈ indexedDocuments idx ∧ ¬ Denies C D := by
  rw [retrieveDocuments_eq_filter]
  simp

/-! ## The index invariant -/

theorem indexInv_nil : IndexInv [] := by
  simp [IndexInv, GoMap.WF]

theorem indexInv_indexDocument (idx : GoMap DocumentEmbedding) (doc : Document)
    (h : IndexInv idx) : IndexInv (indexDocument idx doc) := by
  obtain ⟨hwf, hkey⟩ := h
  unfold IndexInv GoMap.WF indexDocument GoMap.assign at *
  refine ⟨?_, ?_⟩
  · rw [List.map_cons, List.nodup_cons]
    refine ⟨?_, (List.Nodup.sublist (List.Sublist.map _ (List.filter_sublist _)) hwf)⟩
    simp
  · intro e he
    rcases List.mem_cons.1 he with rfl | he
    · rfl
    · exact hkey e (List.mem_of_mem_filter he)

theorem indexedDocuments_nodup (idx : GoMap DocumentEmbedding) (h : IndexInv idx) :
    (indexedDocuments idx).Nodup := by
  obtain ⟨hwf, hkey⟩ := h
  have hmap : (indexedDocuments idx).map Document.Path = idx.map Prod.fst := by
    unfold indexedDocuments
    rw [List.map_map]
    apply List.map_congr_left
    intro e he
    exact (hkey e he).symm
  apply List.Nodup.of_map Document.Path
  rw [hmap]
  exact hwf

theorem indexInv_sampleIndex : IndexInv sampleIndex := by
  unfold sampleIndex
  exact indexInv_indexDocument _ _ (indexInv_indexDocument _ _
    (indexInv_indexDocument _ _ (indexInv_indexDocument _ _ indexInv_nil)))

/-! ## Byte lengths -/

theorem utf8Bytes_append (a b : String) : utf8Bytes (a ++ b) = utf8Bytes a ++ utf8Bytes b := by
  simp [utf8Bytes, String.toList]

theorem byteLen_append (a b : String) : byteLen (a ++ b) = byteLen a + byteLen b := by
  simp [byteLen, utf8Bytes_append]

theorem byteLen_foldl_join (sep : String) (es : List String) (acc : String) :
    byteLen (es.foldl (fun acc s => acc ++ sep ++ s) acc) =
      byteLen acc + es.length * byteLen sep + (es.map byteLen).sum := by
  induction es generalizing acc with
  | nil => simp
  | cons e es ih =>
    rw [List.foldl_cons, ih]
    simp [byteLen_append]
    ring

theorem byteLen_stringsJoin (l : List String) (sep : String) :
    byteLen (stringsJoin l sep) + byteLen sep =
      if l = [] then byteLen "" + byteLen sep else l.length * byteLen sep + (l.map byteLen).sum := by
  cases l with
  | nil => simp [stringsJoin]
  | cons e es =>
    simp [stringsJoin, byteLen_foldl_join]
    ring

theorem byteLen_stringsJoin_perm (l₁ l₂ : List String) (sep : String) (h : l₁.Perm l₂) :
    byteLen (stringsJoin l₁ sep) = byteLen (stringsJoin l₂ sep) := by
  have h₁ := byteLen_stringsJoin l₁ sep
  have h₂ := byteLen_stringsJoin l₂ sep
  have hlen : l₁.length = l₂.length := h.length_eq
  have hsum : (l₁.map byteLen).sum = (l₂.map byteLen).sum := (h.map byteLen).sum_eq
  have hnil : l₁ = [] ↔ l₂ = [] := by
    constructor
    · intro e; subst e; exact (List.Perm.nil_eq h).symm
    · intro e; subst e; exact List.Perm.eq_nil h
  by_cases e : l₁ = []
  · have e2 := hnil.1 e
    rw [e, e2]
  · have e2 : ¬ l₂ = [] := fun x => e (hnil.2 x)
    rw [if_neg e, hlen, hsum] at h₁
    rw [if_neg e2] at h₂
    omega

theorem byteLen_textForEmbedding_perm (d₁ d₂ : Document) (hc : d₁.Content = d₂.Content)
    (hx : d₁.XAttrs.Perm d₂.XAttrs) :
    byteLen (textForEmbedding d₁) = byteLen (textForEmbedding d₂) := by
  unfold textForEmbedding
  have hlen : d₁.XAttrs.length = d₂.XAttrs.length := hx.length_eq
  have hj := byteLen_stringsJoin_perm _ _ ", " (hx.map (fun kv => kv.1 ++ "=" ++ kv.2))
  simp only [List.length_map, hlen, hc]
  split_ifs
  · rw [byteLen_append, byteLen_append, byteLen_append, byteLen_append, hj]
  · rfl

/-! ## Claims -/

/-- C1 (soundness of filtering): for every index, query, context `C` and document
`D`, if one of the four checks denies `D` for `C` (identity mismatch, location
mismatch, confidential tier without privilege, internal tier without identity),
then `D` does not occur in `retrieveDocuments query C`. -/
theorem C1_denied_not_retrieved (idx : GoMap DocumentEmbedding) (query : String)
    (C : GoMap String) (D : Document)
    (h : DeniesIdentity C D ∨ DeniesLocation C D ∨ DeniesConfidential C D ∨
      DeniesInternal C D) :
    D ∉ retrieveDocuments idx query C := by
  intro hmem
  exact ((mem_retrieveDocuments idx query C D).1 hmem).2 h

theorem C1_denied_not_retrieved_witness :
    (DeniesIdentity [("location", "London")] docNewYork ∨
      DeniesLocation [("location", "London")] docNewYork ∨
      DeniesConfidential [("location", "London")] docNewYork ∨
      DeniesInternal [("location", "London")] docNewYork) ∧
    docNewYork ∈ indexedDocuments sampleIndex ∧
    docNewYork ∉ retrieveDocuments sampleIndex "notes" [("location", "London")] :=
  ⟨by decide, by decide,
    C1_denied_not_retrieved sampleIndex "notes" [("location", "London")] docNewYork (by decide)⟩

/-- C2 (completeness and order): `retrieveDocuments query C` is the enumeration of
the index restricted to the documents that no check denies for `C`, in the order
of the enumeration; a document is returned exactly when it is indexed and not
denied; in an index as `indexDocument` builds it every admitted document occurs
exactly once; the empty index yields the empty result. -/
theorem C2_retrieve_is_filtered_enumeration (idx : GoMap DocumentEmbedding)
    (query : String) (C : GoMap String) :
    retrieveDocuments idx query C =
        (indexedDocuments idx).filter (fun D => decide (¬ Denies C D)) ∧
      (retrieveDocuments idx query C).Sublist (indexedDocuments idx) ∧
      (∀ D, D ∈ retrieveDocuments idx query C ↔ D ∈ indexedDocuments idx ∧ ¬ Denies C D) ∧
      (∀ D, ¬ Denies C D →
        (retrieveDocuments idx query C).count D = (indexedDocuments idx).count D) ∧
      (IndexInv idx → ∀ D, D ∈ indexedDocuments idx → ¬ Denies C D →
        (retrieveDocuments idx query C).count D = 1) ∧
      retrieveDocuments [] query C = [] := by
  have hf := retrieveDocuments_eq_filter idx query C
  refine ⟨hf, ?_, mem_retrieveDocuments idx query C, ?_, ?_, rfl⟩
  · rw [hf]
    exact List.filter_sublist _
  · intro D hD
    rw [hf, List.count_filter]
    simpa using hD
  · intro hinv D hD hden
    have hnd : (retrieveDocuments idx query C).Nodup := by
      rw [hf]
      exact (indexedDocuments_nodup idx hinv).filter _
    exact List.count_eq_one_of_mem hnd ((mem_retrieveDocuments idx query C D).2 ⟨hD, hden⟩)

theorem C2_retrieve_is_filtered_enumeration_witness :
    IndexInv sampleIndex ∧ docPublic ∈ indexedDocuments sampleIndex ∧
      ¬ Denies [] docPublic ∧
      (retrieveDocuments sampleIndex "office" []).count docPublic = 1 :=
  ⟨indexInv_sampleIndex, by decide, by decide,
    (C2_retrieve_is_filtered_enumeration sampleIndex "office" []).2.2.2.2.1
      indexInv_sampleIndex docPublic (by decide) (by decide)⟩

/-- C3 (confidential tier, Scenario A): an indexed document whose `user.sensitivity`
is `confidential` and which has neither `user.user_id` nor `user.location` is
returned by `retrieveDocuments` if and only if the department of the context is
`IT` or its `user_id` is `123`. With the attribute `sensitivity: confidential`
alone, the context `department: IT` admits it and `department: Dev` does not. -/
theorem C3_confidential_tier :
    (∀ (idx : GoMap DocumentEmbedding) (query : String) (C : GoMap String) (D : Document),
      D ∈ indexedDocuments idx →
      D.XAttrs.commaOk "user.sensitivity" = some "confidential" →
      D.XAttrs.commaOk "user.user_id" = none →
      D.XAttrs.commaOk "user.location" = none →
      (D ∈ retrieveDocuments idx query C ↔
        C.commaOk "department" = some "IT" ∨ C.commaOk "user_id" = some "123")) ∧
    (∀ (idx : GoMap DocumentEmbedding) (query : String) (D : Document),
      D ∈ indexedDocuments idx →
      D.XAttrs = [("user.sensitivity", "confidential")] →
      D ∈ retrieveDocuments idx query [("department", "IT")] ∧
        D ∉ retrieveDocuments idx query [("department", "Dev")]) := by
  have key : ∀ (idx : GoMap DocumentEmbedding) (query : String) (C : GoMap String)
      (D : Document), D ∈ indexedDocuments idx →
      D.XAttrs.commaOk "user.sensitivity" = some "confidential" →
      D.XAttrs.commaOk "user.user_id" = none →
      D.XAttrs.commaOk "user.location" = none →
      (D ∈ retrieveDocuments idx query C ↔
        C.commaOk "department" = some "IT" ∨ C.commaOk "user_id" = some "123") := by
    intro idx query C D hD hs hu hl
    rw [mem_retrieveDocuments]
    simp only [Denies, DeniesIdentity, DeniesLocation, DeniesConfidential, DeniesInternal,
      hs, hu, hl]
    simp [hD]
    tauto
  refine ⟨key, ?_⟩
  intro idx query D hD hA
  have hs : D.XAttrs.commaOk "user.sensitivity" = some "confidential" := by
    rw [hA]; decide
  have hu : D.XAttrs.commaOk "user.user_id" = none := by rw [hA]; decide
  have hl : D.XAttrs.commaOk "user.location" = none := by rw [hA]; decide
  refine ⟨(key idx query _ D hD hs hu hl).2 (Or.inl (by decide)), ?_⟩
  intro hmem
  have := (key idx query _ D hD hs hu hl).1 hmem
  revert this
  decide

theorem C3_confidential_tier_witness :
    docConfidential ∈ indexedDocuments sampleIndex ∧
    (docConfidential ∈ retrieveDocuments sampleIndex "policy" [("user_id", "123")] ↔
      GoMap.commaOk [("user_id", "123")] "department" = some "IT" ∨
        GoMap.commaOk [("user_id", "123")] "user_id" = some "123") :=
  ⟨by decide,
    C3_confidential_tier.1 sampleIndex "policy" [("user_id", "123")] docConfidential
      (by decide) (by decide) (by decide) (by decide)⟩

/-- C4 (internal tier, Scenario B): an indexed document whose `user.sensitivity` is
`internal` and which has neither `user.user_id` nor `user.location` is returned by
`retrieveDocuments` if and only if the context contains the key `user_id`, with
any value, the empty string included. The empty context is denied and the
context `user_id: 456` is admitted. -/
theorem C4_internal_tier :
    (∀ (idx : GoMap DocumentEmbedding) (query : String) (C : GoMap String) (D : Document),
      D ∈ indexedDocuments idx →
      D.XAttrs.commaOk "user.sensitivity" = some "internal" →
      D.XAttrs.commaOk "user.user_id" = none →
      D.XAttrs.commaOk "user.location" = none →
      (D ∈ retrieveDocuments idx query C ↔ C.commaOk "user_id" ≠ none)) ∧
    (∀ (idx : GoMap DocumentEmbedding) (query : String) (D : Document),
      D ∈ indexedDocuments idx →
      D.XAttrs = [("user.sensitivity", "internal")] →
      D ∉ retrieveDocuments idx query [] ∧
        D ∈ retrieveDocuments idx query [("user_id", "456")] ∧
        D ∈ retrieveDocuments idx query [("user_id", "")]) := by
  have key : ∀ (idx : GoMap DocumentEmbedding) (query : String) (C : GoMap String)
      (D : Document), D ∈ indexedDocuments idx →
      D.XAttrs.commaOk "user.sensitivity" = some "internal" →
      D.XAttrs.commaOk "user.user_id" = none →
      D.XAttrs.commaOk "user.location" = none →
      (D ∈ retrieveDocuments idx query C ↔ C.commaOk "user_id" ≠ none) := by
    intro idx query C D hD hs hu hl
    rw [mem_retrieveDocuments]
    simp only [Denies, DeniesIdentity, DeniesLocation, DeniesConfidential, DeniesInternal,
      hs, hu, hl]
    simp [hD]
  refine ⟨key, ?_⟩
  intro idx query D hD hA
  have hs : D.XAttrs.commaOk "user.sensitivity" = some "internal" := by rw [hA]; decide
  have hu : D.XAttrs.commaOk "user.user_id" = none := by rw [hA]; decide
  have hl : D.XAttrs.commaOk "user.location" = none := by rw [hA]; decide
  refine ⟨?_, (key idx query _ D hD hs hu hl).2 (by decide),
    (key idx query _ D hD hs hu hl).2 (by decide)⟩
  intro hmem
  exact (key idx query _ D hD hs hu hl).1 hmem (by decide)

theorem C4_internal_tier_witness :
    docInternal ∈ indexedDocuments sampleIndex ∧
    (docInternal ∈ retrieveDocuments sampleIndex "report" [("user_id", "456")] ↔
      GoMap.commaOk [("user_id", "456")] "user_id" ≠ none) :=
  ⟨by decide,
    C4_internal_tier.1 sampleIndex "report" [("user_id", "456")] docInternal
      (by decide) (by decide) (by decide) (by decide)⟩

/-- C5 (identity and location match, Scenario C): an indexed document without
`user.sensitivity` is returned by `retrieveDocuments` if and only if (the context
lacks `user_id`, or the document lacks `user.user_id`, or the two values are
equal) and (the context lacks `location`, or the document lacks `user.location`,
or the two values are equal). Attributes `user_id: 123, location: New York` are
admitted for the context `user_id: 123, location: New York` and denied for
`user_id: 123, location: London`. -/
theorem C5_identity_location_match :
    (∀ (idx : GoMap DocumentEmbedding) (query : String) (C : GoMap String) (D : Document),
      D ∈ indexedDocuments idx →
      D.XAttrs.commaOk "user.sensitivity" = none →
      (D ∈ retrieveDocuments idx query C ↔
        (C.commaOk "user_id" = none ∨ D.XAttrs.commaOk "user.user_id" = none ∨
          D.XAttrs.commaOk "user.user_id" = C.commaOk "user_id") ∧
        (C.commaOk "location" = none ∨ D.XAttrs.commaOk "user.location" = none ∨
          D.XAttrs.commaOk "user.location" = C.commaOk "location"))) ∧
    (∀ (idx : GoMap DocumentEmbedding) (query : String) (D : Document),
      D ∈ indexedDocuments idx →
      D.XAttrs = [("user.user_id", "123"), ("user.location", "New York")] →
      D ∈ retrieveDocuments idx query [("user_id", "123"), ("location", "New York")] ∧
        D ∉ retrieveDocuments idx query [("user_id", "123"), ("location", "London")]) := by
  have key : ∀ (idx : GoMap DocumentEmbedding) (query : String) (C : GoMap String)
      (D : Document), D ∈ indexedDocuments idx →
      D.XAttrs.commaOk "user.sensitivity" = none →
      (D ∈ retrieveDocuments idx query C ↔
        (C.commaOk "user_id" = none ∨ D.XAttrs.commaOk "user.user_id" = none ∨
          D.XAttrs.commaOk "user.user_id" = C.commaOk "user_id") ∧
        (C.commaOk "location" = none ∨ D.XAttrs.commaOk "user.location" = none ∨
          D.XAttrs.commaOk "user.location" = C.commaOk "location")) := by
    intro idx query C D hD hs
    rw [mem_retrieveDocuments]
    simp only [Denies, DeniesIdentity, DeniesLocation, DeniesConfidential, DeniesInternal, hs]
    simp [hD]
    tauto
  refine ⟨key, ?_⟩
  intro idx query D hD hA
  have hs : D.XAttrs.commaOk "user.sensitivity" = none := by rw [hA]; decide
  refine ⟨(key idx query _ D hD hs).2 (by rw [hA]; decide), ?_⟩
  intro hmem
  have := (key idx query _ D hD hs).1 hmem
  rw [hA] at this
  revert this
  decide

theorem C5_identity_location_match_witness :
    docPublic ∈ indexedDocuments sampleIndex ∧
    (docPublic ∈ retrieveDocuments sampleIndex "office" [("user_id", "456")] ↔
      (GoMap.commaOk [("user_id", "456")] "user_id" = none ∨
        docPublic.XAttrs.commaOk "user.user_id" = none ∨
        docPublic.XAttrs.commaOk "user.user_id" = GoMap.commaOk [("user_id", "456")] "user_id") ∧
      (GoMap.commaOk [("user_id", "456")] "location" = none ∨
        docPublic.XAttrs.commaOk "user.location" = none ∨
        docPublic.XAttrs.commaOk "user.location" =
          GoMap.commaOk [("user_id", "456")] "location")) :=
  ⟨by decide,
    C5_identity_location_match.1 sampleIndex "office" [("user_id", "456")] docPublic
      (by decide) (by decide)⟩

/-- C6 (default-allow): an indexed document with no `user.user_id`, no
`user.location`, and whose `user.sensitivity` is absent or is any string other
than exactly `confidential` or `internal` is returned by `retrieveDocuments` for
every query and every context, the empty context included. -/
theorem C6_default_allow (idx : GoMap DocumentEmbedding) (query : String)
    (C : GoMap String) (D : Document)
    (hD : D ∈ indexedDocuments idx)
    (hu : D.XAttrs.commaOk "user.user_id" = none)
    (hl : D.XAttrs.commaOk "user.location" = none)
    (hs : D.XAttrs.commaOk "user.sensitivity" ≠ some "confidential" ∧
      D.XAttrs.commaOk "user.sensitivity" ≠ some "internal") :
    D ∈ retrieveDocuments idx query C ∧ D ∈ retrieveDocuments idx query [] := by
  have key : ∀ C0 : GoMap String, D ∈ retrieveDocuments idx query C0 := by
    intro C0
    rw [mem_retrieveDocuments]
    simp only [Denies, DeniesIdentity, DeniesLocation, DeniesConfidential, DeniesInternal,
      hu, hl]
    simp [hD, hs.1, hs.2]
  exact ⟨key C, key []⟩

theorem C6_default_allow_witness :
    docPublic ∈ indexedDocuments
        (indexDocument sampleIndex ⟨"e.txt", "eps", [("user.sensitivity", "Confidential")]⟩) ∧
      (⟨"e.txt", "eps", [("user.sensitivity", "Confidential")]⟩ : Document) ∈
        retrieveDocuments
          (indexDocument sampleIndex ⟨"e.txt", "eps", [("user.sensitivity", "Confidential")]⟩)
          "anything" [("department", "Dev")] :=
  ⟨by decide,
    (C6_default_allow
      (indexDocument sampleIndex ⟨"e.txt", "eps", [("user.sensitivity", "Confidential")]⟩)
      "anything" [("department", "Dev")]
      ⟨"e.txt", "eps", [("user.sensitivity", "Confidential")]⟩
      (by decide) (by decide) (by decide) (by decide)).1⟩

/-- C7 (monotonicity): let `B` be the attribute mapping `A` extended by a key `k`
that `A` does not have. If the document with attributes `B` passes the filter of
`retrieveDocuments` for a context `C`, the same document with attributes `A`
passes it for `C`; hence whenever the extended document is returned, the
original one, if indexed, is returned: adding an attribute never turns a denied
document into an admitted one. -/
theorem C7_monotonicity (C : GoMap String) (A B : GoMap String) (k v : String)
    (path content : String)
    (hfresh : A.commaOk k = none)
    (hnew : B.commaOk k = some v)
    (hold : ∀ j, j ≠ k → B.commaOk j = A.commaOk j) :
    (xattrFilter ⟨path, content, B⟩ C = some () → xattrFilter ⟨path, content, A⟩ C = some ()) ∧
    (∀ (idx idx2 : GoMap DocumentEmbedding) (query query2 : String),
      (⟨path, content, B⟩ : Document) ∈ retrieveDocuments idx2 query2 C →
      (⟨path, content, A⟩ : Document) ∈ indexedDocuments idx →
      (⟨path, content, A⟩ : Document) ∈ retrieveDocuments idx query C) := by
  have hden : Denies C ⟨path, content, A⟩ → Denies C ⟨path, content, B⟩ := by
    have h1 : A.commaOk "user.user_id" ≠ none →
        B.commaOk "user.user_id" = A.commaOk "user.user_id" := by
      intro hne
      by_cases hk : "user.user_id" = k
      · rw [← hk] at hfresh; exact absurd hfresh hne
      · exact hold _ hk
    have h2 : A.commaOk "user.location" ≠ none →
        B.commaOk "user.location" = A.commaOk "user.location" := by
      intro hne
      by_cases hk : "user.location" = k
      · rw [← hk] at hfresh; exact absurd hfresh hne
      · exact hold _ hk
    have h3 : A.commaOk "user.sensitivity" ≠ none →
        B.commaOk "user.sensitivity" = A.commaOk "user.sensitivity" := by
      intro hne
      by_cases hk : "user.sensitivity" = k
      · rw [← hk] at hfresh; exact absurd hfresh hne
      · exact hold _ hk
    unfold Denies DeniesIdentity DeniesLocation DeniesConfidential DeniesInternal
    rintro (⟨hc, hd, hne⟩ | ⟨hc, hd, hne⟩ | ⟨hs, hrest⟩ | ⟨hs, hrest⟩)
    · exact Or.inl ⟨hc, by rw [h1 hd]; exact hd, by rw [h1 hd]; exact hne⟩
    · exact Or.inr (Or.inl ⟨hc, by rw [h2 hd]; exact hd, by rw [h2 hd]; exact hne⟩)
    · have hsn : A.commaOk "user.sensitivity" ≠ none := by
        simp only [] at hs; rw [hs]; simp
      exact Or.inr (Or.inr (Or.inl ⟨by rw [h3 hsn]; exact hs, hrest⟩))
    · have hsn : A.commaOk "user.sensitivity" ≠ none := by
        simp only [] at hs; rw [hs]; simp
      exact Or.inr (Or.inr (Or.inr ⟨by rw [h3 hsn]; exact hs, hrest⟩))
  refine ⟨?_, ?_⟩
  · intro h
    exact (xattrFilter_eq_some_iff _ _).2 (fun hd => (xattrFilter_eq_some_iff _ _).1 h (hden hd))
  · intro idx idx2 query query2 hmem hidx
    exact (mem_retrieveDocuments _ _ _ _).2
      ⟨hidx, fun hd => ((mem_retrieveDocuments _ _ _ _).1 hmem).2 (hden hd)⟩

theorem C7_monotonicity_witness :
    GoMap.commaOk [("user.user_id", "123")] "user.location" = none ∧
    GoMap.commaOk [("user.location", "New York"), ("user.user_id", "123")] "user.location" =
      some "New York" ∧
    xattrFilter ⟨"c.txt", "gamma", [("user.location", "New York"), ("user.user_id", "123")]⟩
      [("user_id", "123"), ("location", "New York")] = some () ∧
    xattrFilter ⟨"c.txt", "gamma", [("user.user_id", "123")]⟩
      [("user_id", "123"), ("location", "New York")] = some () :=
  ⟨by decide, by decide, by decide,
    (C7_monotonicity [("user_id", "123"), ("location", "New York")]
      [("user.user_id", "123")] [("user.location", "New York"), ("user.user_id", "123")]
      "user.location" "New York" "c.txt" "gamma" (by decide) (by decide)
      (by
        intro j hj
        have hjb : (j == "user.location") = false := by
          simpa [beq_eq_false_iff_ne] using hj
        simp [GoMap.commaOk, List.lookup, hjb])).1 (by decide)⟩

/-- C8, as the code has it: two successive calls of `retrieveDocuments` with the
same query and context on an unchanged index return the same documents with the
same multiplicities (the results are permutations of each other, whichever
order each call enumerates the map in), and the identical ordered sequence when
both calls enumerate the map in the same order. -/
theorem C8_retrieve_stable_up_to_order (idx₁ idx₂ : GoMap DocumentEmbedding)
    (query : String) (C : GoMap String) (h : idx₁.Perm idx₂) :
    (retrieveDocuments idx₁ query C).Perm (retrieveDocuments idx₂ query C) ∧
    (∀ D, D ∈ retrieveDocuments idx₁ query C ↔ D ∈ retrieveDocuments idx₂ query C) ∧
    (idx₁ = idx₂ → retrieveDocuments idx₁ query C = retrieveDocuments idx₂ query C) := by
  have hp : (retrieveDocuments idx₁ query C).Perm (retrieveDocuments idx₂ query C) := by
    rw [retrieveDocuments_eq_filter, retrieveDocuments_eq_filter]
    exact (h.map _).filter _
  exact ⟨hp, fun D => hp.mem_iff, fun e => by rw [e]⟩

theorem C8_retrieve_stable_up_to_order_witness :
    sampleIndex.reverse.Perm sampleIndex ∧
    (retrieveDocuments sampleIndex.reverse "office" []).Perm
      (retrieveDocuments sampleIndex "office" []) :=
  ⟨List.reverse_perm _,
    (C8_retrieve_stable_up_to_order sampleIndex.reverse sampleIndex "office" []
      (List.reverse_perm _)).1⟩

/-- C8 fails as stated: the index `sampleIndex` enumerated in two orders (both
are enumerations of the same map, nothing having been indexed in between) gives
two different ordered results for the same query and context. -/
theorem C8_counterexample :
    sampleIndex.reverse.Perm sampleIndex ∧ IndexInv sampleIndex ∧
    retrieveDocuments sampleIndex "office" [] = [docPublic, docNewYork] ∧
    retrieveDocuments sampleIndex.reverse "office" [] = [docNewYork, docPublic] ∧
    retrieveDocuments sampleIndex "office" [] ≠
      retrieveDocuments sampleIndex.reverse "office" [] :=
  ⟨List.reverse_perm _, indexInv_sampleIndex, by decide, by decide, by decide⟩

/-- C9, as the code has it: `generateEmbedding` returns a vector of length 2; for
two documents with equal content and equal attribute mappings, the second
component (the byte length of the hashed text) is the same whatever order the
attribute maps are enumerated in, and the whole vector is the same when the
two attribute maps are enumerated in the same order. -/
theorem C9_embedding_determinism (d₁ d₂ : Document) (hc : d₁.Content = d₂.Content)
    (hx : d₁.XAttrs.Perm d₂.XAttrs) :
    (generateEmbedding d₁).MockVector.length = 2 ∧
    (generateEmbedding d₂).MockVector.length = 2 ∧
    (generateEmbedding d₁).MockVector.get? 1 = (generateEmbedding d₂).MockVector.get? 1 ∧
    (d₁.XAttrs = d₂.XAttrs →
      (generateEmbedding d₁).MockVector = (generateEmbedding d₂).MockVector) := by
  refine ⟨rfl, rfl, ?_, ?_⟩
  · simp [generateEmbedding, byteLen_textForEmbedding_perm d₁ d₂ hc hx]
  · intro hA
    have ht : textForEmbedding d₁ = textForEmbedding d₂ := by
      unfold textForEmbedding
      rw [hc, hA]
    simp [generateEmbedding, ht]

theorem C9_embedding_determinism_witness :
    docNewYork.Content = docNewYorkSwapped.Content ∧
    docNewYork.XAttrs.Perm docNewYorkSwapped.XAttrs ∧
    (generateEmbedding docNewYork).MockVector.get? 1 =
      (generateEmbedding docNewYorkSwapped).MockVector.get? 1 :=
  ⟨rfl, List.Perm.swap _ _ _,
    (C9_embedding_determinism docNewYork docNewYorkSwapped rfl (List.Perm.swap _ _ _)).2.2.1⟩

/-- C9 fails as stated: two documents with the same content and the same
attribute mapping, whose attribute maps are enumerated in two different orders,
get different mock vectors (the hashed texts differ, and so do the hashes). -/
theorem C9_counterexample :
    docNewYork.Content = docNewYorkSwapped.Content ∧
    docNewYork.XAttrs.Perm docNewYorkSwapped.XAttrs ∧
    docNewYork.XAttrs.WF ∧
    (∀ k, docNewYork.XAttrs.commaOk k = docNewYorkSwapped.XAttrs.commaOk k) ∧
    (generateEmbedding docNewYork).MockVector = [10387268651776788480, 68] ∧
    (generateEmbedding docNewYorkSwapped).MockVector = [8042743480205724672, 68] ∧
    (generateEmbedding docNewYork).MockVector ≠
      (generateEmbedding docNewYorkSwapped).MockVector := by
  refine ⟨rfl, List.Perm.swap _ _ _, by unfold GoMap.WF; decide, ?_, by decide, by decide,
    by decide⟩
  intro k
  by_cases h1 : k = "user.user_id"
  · subst h1; decide
  · by_cases h2 : k = "user.location"
    · subst h2; decide
    · have b1 : (k == "user.user_id") = false := by simpa using h1
      have b2 : (k == "user.location") = false := by simpa using h2
      simp [GoMap.commaOk, docNewYork, docNewYorkSwapped, List.lookup, b1, b2]

/-- C10 (noninterference of the admission decision): the decision depends only on
the document attributes `user.user_id`, `user.location`, `user.sensitivity` and
on the context keys `user_id`, `location`, `department`. Two documents that agree
on the three attributes, under two contexts that agree on `user_id`, `location`
and on the value of `department` (absent counting as the empty string), get the
same decision, whatever the index, the query, the path, the content and every
other attribute or context key. -/
theorem C10_noninterference (D₁ D₂ : Document) (C₁ C₂ : GoMap String)
    (hu : D₁.XAttrs.commaOk "user.user_id" = D₂.XAttrs.commaOk "user.user_id")
    (hl : D₁.XAttrs.commaOk "user.location" = D₂.XAttrs.commaOk "user.location")
    (hs : D₁.XAttrs.commaOk "user.sensitivity" = D₂.XAttrs.commaOk "user.sensitivity")
    (hcu : C₁.commaOk "user_id" = C₂.commaOk "user_id")
    (hcl : C₁.commaOk "location" = C₂.commaOk "location")
    (hcd : C₁.index "department" = C₂.index "department") :
    xattrFilter D₁ C₁ = xattrFilter D₂ C₂ ∧
    (∀ (idx₁ idx₂ : GoMap DocumentEmbedding) (query₁ query₂ : String),
      D₁ ∈ indexedDocuments idx₁ → D₂ ∈ indexedDocuments idx₂ →
      (D₁ ∈ retrieveDocuments idx₁ query₁ C₁ ↔ D₂ ∈ retrieveDocuments idx₂ query₂ C₂)) := by
  have hfilter : xattrFilter D₁ C₁ = xattrFilter D₂ C₂ := by
    unfold xattrFilter
    have hcui : C₁.index "user_id" = C₂.index "user_id" := by
      unfold GoMap.index; rw [hcu]
    rw [hu, hl, hs, hcu, hcl, hcd, hcui]
  refine ⟨hfilter, ?_⟩
  intro idx₁ idx₂ query₁ query₂ h₁ h₂
  rw [mem_retrieveDocuments, mem_retrieveDocuments, ← xattrFilter_eq_some_iff,
    ← xattrFilter_eq_some_iff, hfilter]
  simp [h₁, h₂]

theorem C10_noninterference_witness :
    xattrFilter ⟨"x.txt", "one", [("user.sensitivity", "confidential"), ("user.department", "IT")]⟩
        [("department", "Dev"), ("role", "admin")] =
      xattrFilter ⟨"y.txt", "two", [("user.department", "Dev"), ("user.sensitivity", "confidential")]⟩
        [("department", "Dev")] :=
  (C10_noninterference
    ⟨"x.txt", "one", [("user.sensitivity", "confidential"), ("user.department", "IT")]⟩
    ⟨"y.txt", "two", [("user.department", "Dev"), ("user.sensitivity", "confidential")]⟩
    [("department", "Dev"), ("role", "admin")] [("department", "Dev")]
    (by decide) (by decide) (by decide) (by decide) (by decide) (by decide)).1

end XattrRag
